import Mathlib

set_option maxRecDepth 8000

namespace McpGoogleSheets

/-! Shallow embedding of the security layer and the HTTP entry points of
the mcp-google-sheets repository (src/mcp_google_sheets/security.py,
src/mcp_google_sheets/http_server.py, src/mcp_google_sheets/simple_mcp_server.py).
Python strings are modelled as `List Char`, wall-clock times as `Int`. -/

/-- Char-list prefix test: `leadsWith n h` holds when `n` is a prefix of `h`. -/
def leadsWith : List Char → List Char → Bool
  | [], _ => true
  | _ :: _, [] => false
  | a :: as, b :: bs => a == b && leadsWith as bs

/-- Python's `needle in hay` substring test. -/
def containsSub (needle hay : List Char) : Bool :=
  (List.range (hay.length + 1)).any fun i => leadsWith needle (hay.drop i)

/-- Python's `str.lower()` (ASCII, which covers the classifier keywords). -/
def lowerStr (s : List Char) : List Char := s.map Char.toLower

/-! ## RateLimiter (security.py lines 15-47) -/

/-- `RateLimiter.__init__`: `max_calls`, `time_window`, and the `calls` deque
(front of the list = left end of the deque = oldest timestamp). -/
structure RateLimiter where
  max_calls : Nat
  time_window : Int
  calls : List Int
deriving DecidableEq, Repr

/-- `RateLimiter.is_allowed` (security.py lines 23-37): evict timestamps with
`t <= now - time_window` from the left of the deque, deny if the remaining
count is `>= max_calls`, otherwise record `now` and allow.  Returns the
decision together with the updated limiter state. -/
def RateLimiter.is_allowed (rl : RateLimiter) (now : Int) : Bool × RateLimiter :=
  let calls := rl.calls.dropWhile (fun t => decide (t ≤ now - rl.time_window))
  if rl.max_calls ≤ calls.length then (false, { rl with calls := calls })
  else (true, { rl with calls := calls ++ [now] })

/-- A fresh limiter, as built by `RateLimiter.__init__`. -/
def initLimiter (n : Nat) (w : Int) : RateLimiter := ⟨n, w, []⟩

/-- Run a sequence of `is_allowed` calls at the given times, keeping the state. -/
def runCalls (rl : RateLimiter) (times : List Int) : RateLimiter :=
  times.foldl (fun r t => (r.is_allowed t).2) rl

/-! ## ErrorHandler.handle_google_api_error (security.py lines 232-259) -/

/-- The dict returned by `ErrorHandler.handle_google_api_error`:
`error_type` is always `"google_api_error"`; `message` is overwritten by the
matching branch; `retry_after` is present only in the quota branch. -/
structure ErrorDetails where
  error_type : List Char
  message : List Char
  retry_after : Option Nat
deriving DecidableEq, Repr

/-- `ErrorHandler.handle_google_api_error`: lower-case the error text and map
by substring, first match wins: quota/limit, permission/forbidden, not found,
invalid, otherwise a fixed generic message. -/
def handle_google_api_error (error : List Char) : ErrorDetails :=
  let error_str := lowerStr error
  if containsSub "quota".toList error_str || containsSub "limit".toList error_str then
    ⟨"google_api_error".toList, "API quota exceeded. Please try again later.".toList, some 60⟩
  else if containsSub "permission".toList error_str || containsSub "forbidden".toList error_str then
    ⟨"google_api_error".toList, "Insufficient permissions for this operation.".toList, none⟩
  else if containsSub "not found".toList error_str then
    ⟨"google_api_error".toList, "The requested resource was not found.".toList, none⟩
  else if containsSub "invalid".toList error_str then
    ⟨"google_api_error".toList, "Invalid request parameters.".toList, none⟩
  else
    ⟨"google_api_error".toList, "An unexpected error occurred.".toList, none⟩

/-- The fixed generic message used for unclassified (Internal/Unknown) errors. -/
def genericMessage : List Char := "An unexpected error occurred.".toList

/-- Spec §4.4's closed taxonomy of categories reachable by the classifier. -/
inductive ErrorCategory
  | rateLimited
  | permissionDenied
  | notFoundCat
  | validationCat
  | internalCat
deriving DecidableEq, Repr

/-- Written from the spec's words (§4.4): classify by substring priority,
first match wins, in the fixed order quota/limit, permission/forbidden,
not found, invalid, otherwise Internal/Unknown.  Used only to compare the
code's classifier against the spec's category mapping. -/
def specClassify (raw : List Char) : ErrorCategory :=
  let e := lowerStr raw
  if containsSub "quota".toList e || containsSub "limit".toList e then .rateLimited
  else if containsSub "permission".toList e || containsSub "forbidden".toList e then .permissionDenied
  else if containsSub "not found".toList e then .notFoundCat
  else if containsSub "invalid".toList e then .validationCat
  else .internalCat

/-- The caller-visible message the code attaches to each category. -/
def categoryMessage : ErrorCategory → List Char
  | .rateLimited => "API quota exceeded. Please try again later.".toList
  | .permissionDenied => "Insufficient permissions for this operation.".toList
  | .notFoundCat => "The requested resource was not found.".toList
  | .validationCat => "Invalid request parameters.".toList
  | .internalCat => "An unexpected error occurred.".toList

/-- The retry hint the code attaches to each category. -/
def categoryRetry : ErrorCategory → Option Nat
  | .rateLimited => some 60
  | _ => none

/-! ## Lemmas about the rate limiter -/

theorem is_allowed_max_calls (rl : RateLimiter) (now : Int) :
    ((rl.is_allowed now).2).max_calls = rl.max_calls := by
  unfold RateLimiter.is_allowed
  dsimp only
  split <;> rfl

theorem is_allowed_length (rl : RateLimiter) (now : Int)
    (h : rl.calls.length ≤ rl.max_calls) :
    ((rl.is_allowed now).2).calls.length ≤ rl.max_calls := by
  unfold RateLimiter.is_allowed
  dsimp only
  have hdrop : (rl.calls.dropWhile (fun t => decide (t ≤ now - rl.time_window))).length
      ≤ rl.calls.length := (List.dropWhile_sublist _).length_le
  split
  · exact le_trans hdrop h
  · rename_i hlt
    simp only [List.length_append, List.length_singleton]
    omega

theorem runCalls_length (times : List Int) (rl : RateLimiter)
    (h : rl.calls.length ≤ rl.max_calls) :
    (runCalls rl times).calls.length ≤ (runCalls rl times).max_calls := by
  induction times generalizing rl with
  | nil => simpa [runCalls] using h
  | cons t ts ih =>
    simp only [runCalls, List.foldl_cons]
    have h1 : ((rl.is_allowed t).2).calls.length ≤ ((rl.is_allowed t).2).max_calls := by
      rw [is_allowed_max_calls]
      exact is_allowed_length rl t h
    exact ih _ h1

theorem runCalls_max_calls (times : List Int) (rl : RateLimiter) :
    (runCalls rl times).max_calls = rl.max_calls := by
  induction times generalizing rl with
  | nil => rfl
  | cons t ts ih =>
    simp only [runCalls, List.foldl_cons] at ih ⊢
    rw [ih, is_allowed_max_calls]

/-- C2: for every limiter configured with `max_calls = n`, `time_window = w`,
and every call sequence from the fresh state, the number of recorded
timestamps lying within any trailing window `(now - w, now]` is at most `n`
(it is a `Nat`, hence also `≥ 0`); and a denied call changes the deque only
by the eviction pass: the new deque is `dropWhile (· ≤ now - w)` of the old,
the old deque is the evicted entries (each `≤ now - w`) followed by the new
one, and no new timestamp is recorded. -/
theorem claim_C2 :
    (∀ (n : Nat) (w : Int) (times : List Int) (now : Int),
      ((runCalls (initLimiter n w) times).calls.filter
        (fun t => decide (now - w < t ∧ t ≤ now))).length ≤ n)
    ∧ (∀ (rl : RateLimiter) (now : Int), (rl.is_allowed now).1 = false →
        (rl.is_allowed now).2.calls
            = rl.calls.dropWhile (fun t => decide (t ≤ now - rl.time_window))
        ∧ ∃ dropped, rl.calls = dropped ++ (rl.is_allowed now).2.calls
            ∧ ∀ t ∈ dropped, t ≤ now - rl.time_window) := by
  constructor
  · intro n w times now
    have h1 : (runCalls (initLimiter n w) times).calls.length
        ≤ (runCalls (initLimiter n w) times).max_calls :=
      runCalls_length times (initLimiter n w) (by simp [initLimiter])
    have h2 := runCalls_max_calls times (initLimiter n w)
    have h3 : (runCalls (initLimiter n w) times).calls.length ≤ n := by
      rw [h2] at h1; simpa [initLimiter] using h1
    exact le_trans (List.length_filter_le _ _) h3
  · intro rl now hdenied
    unfold RateLimiter.is_allowed at hdenied ⊢
    dsimp only at hdenied ⊢
    split at hdenied <;> rename_i hcond
    · rw [if_pos hcond]
      dsimp only
      refine ⟨rfl, rl.calls.takeWhile (fun t => decide (t ≤ now - rl.time_window)),
        (List.takeWhile_append_dropWhile _ _).symm, ?_⟩
      intro t ht
      simpa using List.mem_takeWhile_imp ht
    · simp at hdenied

/-- C2 witness: a limiter with `max_calls = 1` holding timestamp `5` denies a
call at time `10` (window 60), and the denied call leaves the deque `[5]`
equal to the eviction pass over the old deque. -/
theorem claim_C2_witness :
    ((RateLimiter.is_allowed ⟨1, 60, [5]⟩ 10).2.calls
        = List.dropWhile (fun t => decide (t ≤ (10 : Int) - 60)) [5])
    ∧ (RateLimiter.is_allowed ⟨1, 60, [5]⟩ 10).1 = false :=
  ⟨(claim_C2.2 ⟨1, 60, [5]⟩ 10 (by decide)).1, by decide⟩

/-! ## C3: the classifier against the spec's taxonomy -/

/-- C3: the code's classifier refines the spec's fixed-priority taxonomy:
for every raw error, the message and retry hint returned by
`handle_google_api_error` are exactly the ones the spec assigns to the
category obtained by first-match-wins substring classification of the
lower-cased message; in particular `"Quota exceeded for user"` classifies as
RateLimited with `retry_after = 60`. -/
theorem claim_C3 :
    (∀ raw : List Char,
      (handle_google_api_error raw).message = categoryMessage (specClassify raw)
      ∧ (handle_google_api_error raw).retry_after = categoryRetry (specClassify raw))
    ∧ specClassify "Quota exceeded for user".toList = .rateLimited
    ∧ (handle_google_api_error "Quota exceeded for user".toList).retry_after = some 60
    ∧ specClassify "Permission denied".toList = .permissionDenied
    ∧ specClassify "Sheet not found".toList = .notFoundCat
    ∧ specClassify "totally unexpected boom".toList = .internalCat := by
  refine ⟨?_, by decide, by decide, by decide, by decide, by decide⟩
  intro raw
  unfold handle_google_api_error specClassify
  dsimp only
  split
  · exact ⟨rfl, rfl⟩
  · split
    · exact ⟨rfl, rfl⟩
    · split
      · exact ⟨rfl, rfl⟩
      · split
        · exact ⟨rfl, rfl⟩
        · exact ⟨rfl, rfl⟩

/-! ## InputValidator (security.py lines 125-183) -/

/-- `InputValidator.validate_spreadsheet_id`: non-empty, length in [20, 100],
and none of the dangerous characters `< > " ' & NUL CR LF`. -/
def validate_spreadsheet_id (s : List Char) : Bool :=
  if s.isEmpty then false
  else if s.length < 20 || 100 < s.length then false
  else if ['<', '>', '"', '\'', '&', Char.ofNat 0, '\r', '\n'].any
      (fun c => s.contains c) then false
  else true

/-- `InputValidator.validate_sheet_name`: non-empty, length in [1, 100], and
none of the invalid characters `[ ] * ? : \ / NUL`. -/
def validate_sheet_name (s : List Char) : Bool :=
  if s.isEmpty then false
  else if s.length < 1 || 100 < s.length then false
  else if ['[', ']', '*', '?', ':', '\\', '/', Char.ofNat 0].any
      (fun c => s.contains c) then false
  else true

/-- `[A-Za-z0-9_]` of the range regex. -/
def isWordChar (c : Char) : Bool :=
  ('A' ≤ c && c ≤ 'Z') || ('a' ≤ c && c ≤ 'z') || ('0' ≤ c && c ≤ '9') || c == '_'

/-- `[A-Z]` of the range regex. -/
def isUpperAZ (c : Char) : Bool := 'A' ≤ c && c ≤ 'Z'

/-- `\d` of the range regex. -/
def isDigit09 (c : Char) : Bool := '0' ≤ c && c ≤ '9'

/-- Matcher for `[A-Z]+\d+`: a non-empty run of uppercase letters followed by
a non-empty run of digits (the split at the end of the uppercase run is the
only possible one, since the two classes are disjoint). -/
def isCellRef (l : List Char) : Bool :=
  let a := l.takeWhile isUpperAZ
  let b := l.drop a.length
  !a.isEmpty && !b.isEmpty && b.all isDigit09

/-- Matcher for `[A-Z]+\d+(:[A-Z]+\d+)?`: the part before the first `:` must
be a cell reference; when a `:` is present, so must the part after it (which
itself contains no `:`, or `isCellRef` fails). -/
def matchTail (l : List Char) : Bool :=
  let x := l.takeWhile (fun c => c != ':')
  match l.dropWhile (fun c => c != ':') with
  | [] => isCellRef x
  | _ :: y => isCellRef x && isCellRef y

/-- `InputValidator.validate_range`: full anchored match of the regex
`^[A-Za-z0-9_]+!?[A-Z]+\d+(:[A-Z]+\d+)?$`, realized by trying every split
point for the leading `[A-Za-z0-9_]+` group (regex backtracking). -/
def validate_range (s : List Char) : Bool :=
  if s.isEmpty then false
  else
    (List.range s.length).any fun i =>
      let w := s.take (i + 1)
      let rest := s.drop (i + 1)
      w.all isWordChar &&
        (matchTail rest ||
          (match rest with
           | c :: r => c == '!' && matchTail r
           | [] => false))

/-- `[a-zA-Z0-9._%+-]` of the email regex. -/
def isLocalChar (c : Char) : Bool :=
  ('a' ≤ c && c ≤ 'z') || ('A' ≤ c && c ≤ 'Z') || ('0' ≤ c && c ≤ '9') ||
    c == '.' || c == '_' || c == '%' || c == '+' || c == '-'

/-- `[a-zA-Z0-9.-]` of the email regex. -/
def isDomainChar (c : Char) : Bool :=
  ('a' ≤ c && c ≤ 'z') || ('A' ≤ c && c ≤ 'Z') || ('0' ≤ c && c ≤ '9') ||
    c == '.' || c == '-'

/-- `[a-zA-Z]` of the email regex. -/
def isAlphaChar (c : Char) : Bool := ('a' ≤ c && c ≤ 'z') || ('A' ≤ c && c ≤ 'Z')

/-- `InputValidator.validate_email`: full anchored match of the regex
`^[a-zA-Z0-9._%+-]+@[a-zA-Z0-9.-]+\.[a-zA-Z]{2,}$`, realized by trying the
split points for `@` and for the last mandatory dot. -/
def validate_email (s : List Char) : Bool :=
  if s.isEmpty then false
  else
    (List.range s.length).any fun i =>
      let local_ := s.take i
      match s.drop i with
      | '@' :: rest =>
        !local_.isEmpty && local_.all isLocalChar &&
          (List.range rest.length).any fun j =>
            let dom := rest.take j
            match rest.drop j with
            | '.' :: tld =>
              !dom.isEmpty && dom.all isDomainChar &&
                2 ≤ tld.length && tld.all isAlphaChar
            | _ => false
      | _ => false

/-- The A1-notation grammar of spec §4.2:
`(<sheet-token>!)?<COL><ROW>(:<COL><ROW>)?` with COL one-or-more uppercase
letters, ROW one-or-more digits, and the sheet token a non-empty run of
word characters.  Written from the spec's words, to be compared with the
code's `validate_range`. -/
def grammarA1 (s : List Char) : Bool :=
  matchTail s ||
    (List.range s.length).any fun i =>
      let tok := s.take (i + 1)
      tok.all isWordChar &&
        (match s.drop (i + 1) with
         | c :: r => c == '!' && matchTail r
         | [] => false)

/-! ## validate_inputs (security.py lines 185-211) -/

/-- The `validation_type` strings accepted by `validate_inputs`. -/
inductive VKind
  | spreadsheetId
  | sheetName
  | rangeKind
  | emailKind
deriving DecidableEq, Repr

/-- The `validation_type` name as it appears in the raised error message. -/
def kindName : VKind → List Char
  | .spreadsheetId => "spreadsheet_id".toList
  | .sheetName => "sheet_name".toList
  | .rangeKind => "range".toList
  | .emailKind => "email".toList

/-- Dispatch to the matching `InputValidator` predicate. -/
def checkKind : VKind → List Char → Bool
  | .spreadsheetId, v => validate_spreadsheet_id v
  | .sheetName, v => validate_sheet_name v
  | .rangeKind, v => validate_range v
  | .emailKind, v => validate_email v

/-- The message of the `ValueError` raised by `validate_inputs`:
`f"Invalid {validation_type}: {value}"`. -/
def invalidMsg (k : VKind) (v : List Char) : List Char :=
  "Invalid ".toList ++ kindName k ++ ": ".toList ++ v

/-- Keyword arguments: an association list keyed by parameter name
(a Python dict has unique keys). -/
def Kwargs := List (List Char × List Char)

/-- Python's `param_name in kwargs` / `kwargs[param_name]`. -/
def lookupKw (kwargs : Kwargs) (p : List Char) : Option (List Char) :=
  (kwargs.find? (fun kv => kv.1 == p)).map (·.2)

/-- The loop body of the `validate_inputs` wrapper: walk the declared
validations; a parameter present in `kwargs` whose value fails its validator
raises `ValueError` with `invalidMsg`; parameters absent from `kwargs`
(e.g. supplied positionally) are skipped. Returns the first error, if any. -/
def runValidations : List (List Char × VKind) → Kwargs → Option (List Char)
  | [], _ => none
  | (p, k) :: rest, kwargs =>
    match lookupKw kwargs p with
    | none => runValidations rest kwargs
    | some v => if checkKind k v then runValidations rest kwargs else some (invalidMsg k v)

/-- The `validate_inputs(**validations)` wrapper (security.py lines 185-211):
check only the keyword arguments, then invoke the wrapped function with the
original `args` and `kwargs`; a failed check raises before the call. -/
def validate_inputs_wrapper {R : Type} (validations : List (List Char × VKind))
    (func : List (List Char) → Kwargs → R) (args : List (List Char))
    (kwargs : Kwargs) : Except (List Char) R :=
  match runValidations validations kwargs with
  | some msg => .error msg
  | none => .ok (func args kwargs)

/-! ## SecurityAuditor.get_events (security.py lines 84-91) -/

/-- An entry of `SecurityAuditor.events`; only the `type` field is inspected
by `get_events`, the timestamp stands for the rest of the event dict. -/
structure AuditEvent where
  type : List Char
  timestamp : Int
deriving DecidableEq, Repr

/-- Python's `l[-limit:]` slice for a non-negative `limit`: `-0` is `0`, so
`limit = 0` denotes the whole list; otherwise the last `limit` elements. -/
def pySliceLast {α : Type} (l : List α) (limit : Nat) : List α :=
  if limit = 0 then l else l.drop (l.length - limit)

/-- `SecurityAuditor.get_events`: optionally filter by type (Python
truthiness: `None` and the empty string both skip the filter), then return
`events[-limit:]`. -/
def get_events (events : List AuditEvent) (event_type : Option (List Char))
    (limit : Nat) : List AuditEvent :=
  let evs := match event_type with
    | none => events
    | some t => if t.isEmpty then events else events.filter (fun e => e.type == t)
  pySliceLast evs limit

/-- The claim's "(filtered) event list": all events when no filter is given,
otherwise the events of the requested type, in chronological (append) order. -/
def filteredEvents (event_type : Option (List Char))
    (events : List AuditEvent) : List AuditEvent :=
  match event_type with
  | none => events
  | some t => events.filter (fun e => e.type == t)

/-! ## audit_log (security.py lines 96-123) and SecurityAuditor.log_event
(lines 71-82) -/

/-- An entry appended by `SecurityAuditor.log_event` through the `audit_log`
wrapper: whether the call succeeded, and `str(e)` on failure. -/
structure AuditEntry where
  success : Bool
  error : Option (List Char)
deriving DecidableEq, Repr

/-- `SecurityAuditor.log_event`: append the event to `self.events`, then call
`logger.info`.  The logger is an external collaborator and may itself raise;
`loggerFail` gives the exception it raises, if any.  The append happens
before the logger call, so the entry is recorded even when the logger then
raises. -/
def log_event (loggerFail : AuditEntry → Option (List Char)) (e : AuditEntry)
    (events : List AuditEntry) : List AuditEntry × Option (List Char) :=
  (events ++ [e], loggerFail e)

/-- The `audit_log` wrapper (security.py lines 96-123): run the wrapped call
inside `try`; on success, log a success entry and return the result; any
exception raised in the `try` block — by the call or by the success-path
`log_event` — is caught by `except`, which logs a failure entry recording
`str(e)` and re-raises (`raise` re-raises the caught exception; if the
failure-path `log_event` itself raises, that exception propagates instead). -/
def audit_log {R : Type} (loggerFail : AuditEntry → Option (List Char))
    (func : Except (List Char) R) (events : List AuditEntry) :
    Except (List Char) R × List AuditEntry :=
  match func with
  | .ok r =>
    let l1 := log_event loggerFail ⟨true, none⟩ events
    match l1.2 with
    | none => (.ok r, l1.1)
    | some e =>
      let l2 := log_event loggerFail ⟨false, some e⟩ l1.1
      match l2.2 with
      | none => (.error e, l2.1)
      | some e2 => (.error e2, l2.1)
  | .error e =>
    let l1 := log_event loggerFail ⟨false, some e⟩ events
    match l1.2 with
    | none => (.error e, l1.1)
    | some e2 => (.error e2, l1.1)

/-! ## call_tool (http_server.py lines 424-463) -/

/-- The `ToolCallResponse` pydantic model of http_server.py. -/
structure ToolCallResponse where
  success : Bool
  result : Option (List Char)
  error : Option (List Char)
deriving DecidableEq, Repr

/-- What the caller of `POST /tools/call` receives: either the JSON body of a
raised `HTTPException` (rendered by FastAPI as a structured `detail`
response with the given status) or a `ToolCallResponse`. -/
inductive CallToolOut
  | httpError (status : Nat) (detail : List Char)
  | response (r : ToolCallResponse)
deriving DecidableEq, Repr

/-- A tool handler: the `tool.handler` found by iterating `mcp.list_tools()`;
it returns a result or raises an exception with the given message. -/
def ToolHandler := Kwargs → Except (List Char) (List Char)

/-- The `ToolCallRequest` pydantic model. -/
structure ToolCallRequest where
  tool_name : List Char
  parameters : Kwargs

/-- `call_tool` (http_server.py lines 424-463): 503 when the context is not
initialized; 400 `Unknown tool` when the name is not in `TOOL_DEFINITIONS`;
otherwise find the handler in `mcp.list_tools()` (the `HTTPException` raised
when it is missing is itself caught by the surrounding `except Exception`,
whose Starlette `str()` is `"400: ..."`), execute it, and return
`ToolCallResponse(success=True, result=...)` on success or — in the `except`
branch — `ToolCallResponse(success=False, error=str(e))` with the raw
exception text.  The second component records whether a handler was
executed. -/
def call_tool (ctxInit : Bool) (toolDefs : List (List Char))
    (tools : List (List Char × ToolHandler)) (req : ToolCallRequest) :
    CallToolOut × Bool :=
  if !ctxInit then
    (.httpError 503 "Spreadsheet context not initialized".toList, false)
  else if !(toolDefs.contains req.tool_name) then
    (.httpError 400 ("Unknown tool: ".toList ++ req.tool_name), false)
  else
    match (tools.find? (fun t => t.1 == req.tool_name)).map (·.2) with
    | none =>
      (.response ⟨false, none,
        some ("400: Tool function not found: ".toList ++ req.tool_name)⟩, false)
    | some f =>
      match f req.parameters with
      | .ok v => (.response ⟨true, some v, none⟩, true)
      | .error e => (.response ⟨false, none, some e⟩, true)

/-! ## mcp_endpoint (simple_mcp_server.py lines 80-192) -/

/-- The fields of the JSON-RPC request dict that `mcp_endpoint` reads:
`jsonrpc`, `method`, `params.name` and the tool argument (`query` or `id`,
defaulted to `""` by `.get`). -/
structure McpRequest where
  jsonrpc : List Char
  method : List Char
  tool_name : List Char
  tool_arg : List Char

/-- The responses `mcp_endpoint` can return, keeping the JSON-RPC error
code and message of the default branch. -/
inductive McpOut
  | initializeResult
  | toolContent (text : List Char)
  | toolsListResult
  | rpcError (code : Int) (message : List Char)
deriving DecidableEq, Repr

/-- `mcp_endpoint` (simple_mcp_server.py lines 80-192): handle `initialize`,
`tools/call` (dispatching to the `search` or `fetch` tool; any other tool
name falls through), and `tools/list`; every unhandled request reaches the
default response `{"error": {"code": -32601, "message": "Method not found"}}`.
The second component records whether a tool handler was invoked. -/
def mcp_endpoint (searchTool fetchTool : List Char → List Char)
    (req : McpRequest) : McpOut × Bool :=
  if req.jsonrpc = "2.0".toList ∧ req.method = "initialize".toList then
    (.initializeResult, false)
  else if req.jsonrpc = "2.0".toList ∧ req.method = "tools/call".toList then
    if req.tool_name = "search".toList then (.toolContent (searchTool req.tool_arg), true)
    else if req.tool_name = "fetch".toList then (.toolContent (fetchTool req.tool_arg), true)
    else (.rpcError (-32601) "Method not found".toList, false)
  else if req.jsonrpc = "2.0".toList ∧ req.method = "tools/list".toList then
    (.toolsListResult, false)
  else (.rpcError (-32601) "Method not found".toList, false)

/-! ## The Gateway pipeline (spec §4.7) -/

/-- A gateway result: success, a validation failure naming the parameter, or
a rate-limit failure. -/
inductive GatewayResult (R : Type)
  | success (r : R)
  | validationError (msg : List Char)
  | rateLimitError (msg : List Char)
deriving DecidableEq

/-- The message of the exception raised by the `rate_limit` decorator
(security.py line 60): `f"Rate limit exceeded: {max_calls} calls per
{time_window} seconds"` (the numbers are elided). -/
def rateLimitMsg : List Char := "Rate limit exceeded".toList

/-- Modelled from the spec: the Gateway's `handle` pipeline of §4.7 (the
gateway composition lives in server.py, which is not under src/; only its
stages — `validate_inputs`, `RateLimiter`/`rate_limit` — are).  Per §4.7
steps 2-3 and §4.2, validation runs first and a validation failure returns
`Failure(Validation)` naming the parameter before the rate limiter is
charged; otherwise admission is checked via `RateLimiter.is_allowed` (the
`rate_limit` decorator, security.py lines 52-63), and only then is the
handler invoked. -/
def gatewayHandle {R : Type} (validations : List (List Char × VKind))
    (limiter : RateLimiter) (now : Int) (handler : Kwargs → R)
    (kwargs : Kwargs) : GatewayResult R × RateLimiter :=
  match runValidations validations kwargs with
  | some msg => (.validationError msg, limiter)
  | none =>
    match limiter.is_allowed now with
    | (true, limiter') => (.success (handler kwargs), limiter')
    | (false, limiter') => (.rateLimitError rateLimitMsg, limiter')

/-! ## Shared classifier refinement lemma (used by C1 and C3) -/

theorem classifier_refines (raw : List Char) :
    (handle_google_api_error raw).message = categoryMessage (specClassify raw)
    ∧ (handle_google_api_error raw).retry_after = categoryRetry (specClassify raw) := by
  unfold handle_google_api_error specClassify
  dsimp only
  split
  · exact ⟨rfl, rfl⟩
  · split
    · exact ⟨rfl, rfl⟩
    · split
      · exact ⟨rfl, rfl⟩
      · split
        · exact ⟨rfl, rfl⟩
        · exact ⟨rfl, rfl⟩

/-! ## C6 -/

/-- C6 (code evaluation at the failing inputs): the code's `validate_range`
rejects the bare references `"A1"` and `"A1:B2"` — both listed as valid
examples in its own docstring and accepted by the spec's A1 grammar —
because the mandatory leading `[A-Za-z0-9_]+` group consumes at least one
character before the `[A-Z]+\d+` cell reference; and it accepts
`"Sheet1A1"`, a sheet token not followed by `!`, which the grammar rejects.
`"Sheet1!A1:B2"` is accepted by both. -/
theorem claim_C6_code_eval :
    validate_range "A1".toList = false
    ∧ validate_range "A1:B2".toList = false
    ∧ grammarA1 "A1".toList = true
    ∧ grammarA1 "A1:B2".toList = true
    ∧ validate_range "Sheet1A1".toList = true
    ∧ grammarA1 "Sheet1A1".toList = false
    ∧ validate_range "Sheet1!A1:B2".toList = true
    ∧ grammarA1 "Sheet1!A1:B2".toList = true := by decide

/-! ## C9 -/

/-- C9: `validate_inputs` checks only keyword arguments.  The validation
outcome depends only on the declared parameters that actually occur in
`kwargs`; whenever the keyword checks pass, the wrapped function is invoked
with the original positional arguments unexamined; in particular the
malformed spreadsheet id `"bad<id>"` (rejected by the validator) is accepted
when passed positionally. -/
theorem claim_C9 :
    (∀ (v : List (List Char × VKind)) (kwargs : Kwargs),
      runValidations v kwargs
        = runValidations (v.filter (fun pk => (lookupKw kwargs pk.1).isSome)) kwargs)
    ∧ (∀ {R : Type} (v : List (List Char × VKind))
        (func : List (List Char) → Kwargs → R) (args : List (List Char))
        (kwargs : Kwargs),
      runValidations v kwargs = none →
      validate_inputs_wrapper v func args kwargs = .ok (func args kwargs))
    ∧ validate_spreadsheet_id "bad<id>".toList = false
    ∧ (∀ {R : Type} (func : List (List Char) → Kwargs → R),
      validate_inputs_wrapper [("spreadsheet_id".toList, .spreadsheetId)] func
        ["bad<id>".toList] [] = .ok (func ["bad<id>".toList] [])) := by
  refine ⟨?_, ?_, by decide, ?_⟩
  · intro v kwargs
    induction v with
    | nil => rfl
    | cons pk rest ih =>
      obtain ⟨p, k⟩ := pk
      cases h : lookupKw kwargs p with
      | none => simpa [runValidations, h, List.filter_cons] using ih
      | some val =>
        simp only [runValidations, h, List.filter_cons, Option.isSome_some]
        by_cases hc : checkKind k val
        · simpa [runValidations, h, hc] using ih
        · simp [runValidations, h, hc]
  · intro R v func args kwargs h
    unfold validate_inputs_wrapper
    rw [h]
  · intro R func
    rfl

/-- C9 witness: the wrapper with a declared `spreadsheet_id` validation and
the malformed id `"bad<id>"` passed positionally still invokes the wrapped
function. -/
theorem claim_C9_witness :
    validate_inputs_wrapper [("spreadsheet_id".toList, VKind.spreadsheetId)]
      (fun a _ => a.length) ["bad<id>".toList] [] = .ok 1 :=
  claim_C9.2.1 [("spreadsheet_id".toList, VKind.spreadsheetId)]
    (fun a _ => a.length) ["bad<id>".toList] [] rfl

/-! ## C5 -/

/-- C5: under the spec's composition of the stages (validate before the
limiter is charged), a request whose arguments fail validation yields a
Validation failure carrying the `Invalid {param}: {value}` message and
returns the limiter — its recorded timestamp sequence included — unchanged;
in particular `sheet_name = "bad[name]"` produces the failure
`Invalid sheet_name: bad[name]` naming `sheet_name`. -/
theorem claim_C5 :
    (∀ {R : Type} (validations : List (List Char × VKind))
      (limiter : RateLimiter) (now : Int) (handler : Kwargs → R)
      (kwargs : Kwargs) (msg : List Char),
      runValidations validations kwargs = some msg →
      gatewayHandle validations limiter now handler kwargs
        = (.validationError msg, limiter))
    ∧ runValidations [("sheet_name".toList, .sheetName)]
        [("sheet_name".toList, "bad[name]".toList)]
        = some ("Invalid sheet_name: bad[name]".toList) := by
  refine ⟨?_, by decide⟩
  intro R validations limiter now handler kwargs msg h
  unfold gatewayHandle
  rw [h]

/-- C5 witness: the `"bad[name]"` request against a limiter already holding
timestamp `3` returns the Validation failure and the identical limiter. -/
theorem claim_C5_witness :
    gatewayHandle [("sheet_name".toList, VKind.sheetName)] ⟨10, 60, [3]⟩ 100
      (fun _ => (0 : Nat)) [("sheet_name".toList, "bad[name]".toList)]
      = (.validationError ("Invalid sheet_name: bad[name]".toList), ⟨10, 60, [3]⟩) :=
  claim_C5.1 [("sheet_name".toList, VKind.sheetName)] ⟨10, 60, [3]⟩ 100
    (fun _ => (0 : Nat)) [("sheet_name".toList, "bad[name]".toList)]
    ("Invalid sheet_name: bad[name]".toList) (by decide)

/-! ## C10 -/

/-- C10: querying the audit log with `limit = 0` returns every recorded
event rather than none: for any event sequence and any event-type filter
(`none`, or a non-empty type string — the empty string is falsy in Python
and skips filtering), `get_events` with `limit = 0` is the whole filtered
list in chronological order, because `events[-0:]` is the whole list. -/
theorem claim_C10 :
    ∀ (events : List AuditEvent) (etype : Option (List Char)),
      (∀ t, etype = some t → t ≠ []) →
      get_events events etype 0 = filteredEvents etype events := by
  intro events etype h
  cases etype with
  | none => simp [get_events, filteredEvents, pySliceLast]
  | some t =>
    have ht : t ≠ [] := h t rfl
    have ht2 : t.isEmpty = false := by
      cases t with
      | nil => exact absurd rfl ht
      | cons a as => rfl
    simp [get_events, filteredEvents, pySliceLast, ht2]

/-- C10 witness: with two `auth` events and one `tool` event recorded,
`get_events (some "auth") 0` returns both `auth` events in order. -/
theorem claim_C10_witness :
    get_events [⟨"auth".toList, 1⟩, ⟨"tool".toList, 2⟩, ⟨"auth".toList, 3⟩]
      (some "auth".toList) 0
      = [⟨"auth".toList, 1⟩, ⟨"auth".toList, 3⟩] := by
  rw [claim_C10 [⟨"auth".toList, 1⟩, ⟨"tool".toList, 2⟩, ⟨"auth".toList, 3⟩]
    (some "auth".toList) (by intro t htt; cases htt; decide)]
  decide

/-! ## C7 -/

/-- C7: a request whose method resolves to no registered operation gets a
well-formed failure response and invokes no handler: `mcp_endpoint` returns
the JSON-RPC `-32601 "Method not found"` error for every unknown method, and
`call_tool` answers an unknown tool name with the structured 400
`Unknown tool` response (an `HTTPException` rendered by FastAPI, not a bare
exception); in both cases the handler-invoked flag is `false`. -/
theorem claim_C7 :
    (∀ (search fetch : List Char → List Char) (req : McpRequest),
      req.method ∉ ["initialize".toList, "tools/call".toList, "tools/list".toList] →
      mcp_endpoint search fetch req
        = (.rpcError (-32601) "Method not found".toList, false))
    ∧ (∀ (toolDefs : List (List Char)) (tools : List (List Char × ToolHandler))
        (req : ToolCallRequest),
      req.tool_name ∉ toolDefs →
      call_tool true toolDefs tools req
        = (.httpError 400 ("Unknown tool: ".toList ++ req.tool_name), false)) := by
  constructor
  · intro search fetch req hm
    simp only [List.mem_cons, List.not_mem_nil, or_false, not_or] at hm
    obtain ⟨h1, h2, h3⟩ := hm
    unfold mcp_endpoint
    rw [if_neg (fun h => h1 h.2), if_neg (fun h => h2 h.2), if_neg (fun h => h3 h.2)]
  · intro toolDefs tools req hn
    simp [call_tool, hn]

/-- C7 witness: the unknown method `"bogus"` and the unknown tool `"nope"`
both produce the structured failure with no handler invoked. -/
theorem claim_C7_witness :
    mcp_endpoint id id ⟨"2.0".toList, "bogus".toList, [], []⟩
      = (.rpcError (-32601) "Method not found".toList, false)
    ∧ call_tool true ["list_spreadsheets".toList] [] ⟨"nope".toList, []⟩
      = (.httpError 400 ("Unknown tool: ".toList ++ "nope".toList), false) :=
  ⟨claim_C7.1 id id ⟨"2.0".toList, "bogus".toList, [], []⟩ (by decide),
   claim_C7.2 ["list_spreadsheets".toList] [] ⟨"nope".toList, []⟩ (by decide)⟩

/-! ## C1 -/

/-- C1 counterexample: a handler failure inside `call_tool` is returned to
the caller verbatim — the response's `error` field is exactly the raw
exception text `str(e)`, with no classifier substitution. -/
theorem claim_C1_counterexample :
    (call_tool true ["get_sheet_data".toList]
      [("get_sheet_data".toList,
        fun _ => .error "Traceback: ValueError: secret internal detail".toList)]
      ⟨"get_sheet_data".toList, []⟩).1
      = .response ⟨false, none,
          some "Traceback: ValueError: secret internal detail".toList⟩ := rfl

/-- C1 amended: the classifier itself never re-exposes an unmatched
(Internal/Unknown) message — it substitutes the fixed generic string, which
differs from the raw text whenever the raw text is not that very string —
but the gateway entry point `call_tool` does not route handler failures
through the classifier: on its exception path the response carries the raw
exception text unredacted. -/
theorem claim_C1_amended :
    (∀ raw : List Char, specClassify raw = .internalCat →
      (handle_google_api_error raw).message = genericMessage
      ∧ (raw ≠ genericMessage → (handle_google_api_error raw).message ≠ raw))
    ∧ (∀ (toolDefs : List (List Char)) (tools : List (List Char × ToolHandler))
        (req : ToolCallRequest) (f : ToolHandler) (e : List Char),
      req.tool_name ∈ toolDefs →
      (tools.find? (fun t => t.1 == req.tool_name)).map (·.2) = some f →
      f req.parameters = .error e →
      (call_tool true toolDefs tools req).1 = .response ⟨false, none, some e⟩) := by
  constructor
  · intro raw h
    have hm := (classifier_refines raw).1
    rw [h] at hm
    exact ⟨hm, fun hne => by rw [hm]; exact fun hh => hne hh.symm⟩
  · intro toolDefs tools req f e hdef hfind hrun
    simp [call_tool, hdef, hfind, hrun]

/-- C1 amended witness: `"totally unexpected boom"` is unmatched and maps to
the fixed generic message; and a concrete failing handler's raw text is
returned verbatim by `call_tool`. -/
theorem claim_C1_amended_witness :
    (handle_google_api_error "totally unexpected boom".toList).message = genericMessage
    ∧ (call_tool true ["t".toList]
        [("t".toList, fun _ => .error "boom detail".toList)] ⟨"t".toList, []⟩).1
      = .response ⟨false, none, some "boom detail".toList⟩ :=
  ⟨(claim_C1_amended.1 "totally unexpected boom".toList (by decide)).1,
   claim_C1_amended.2 ["t".toList] [("t".toList, fun _ => .error "boom detail".toList)]
     ⟨"t".toList, []⟩ (fun _ => .error "boom detail".toList) "boom detail".toList
     (by decide) rfl rfl⟩

/-! ## C8 -/

/-- C8 counterexample: when the audit logger raises on the success path, the
caller receives the audit failure instead of the operation's result — the
wrapped call computed `42`, but `audit_log` delivers the logger's
exception. -/
theorem claim_C8_counterexample :
    (audit_log (fun _ => some "log write failure".toList)
        (Except.ok (42 : Nat)) []).1
      = Except.error "log write failure".toList
    ∧ (audit_log (fun _ => some "log write failure".toList)
        (Except.ok (42 : Nat)) []).1 ≠ Except.ok 42 :=
  ⟨rfl, fun h => by simp [audit_log, log_event] at h⟩

/-- C8 amended: every invocation, successful or failing, appends an audit
entry recording the outcome (the append precedes the logger call, so it
happens even when the logger then raises); and when the audit logger does
not fail, the operation's result or original exception is delivered to the
caller unchanged.  A logger failure, however, propagates to the caller in
place of the result. -/
theorem claim_C8_amended :
    ∀ {R : Type} (loggerFail : AuditEntry → Option (List Char))
      (func : Except (List Char) R) (events : List AuditEntry),
      (∀ r, func = .ok r →
        ∃ rest, (audit_log loggerFail func events).2
          = events ++ ⟨true, none⟩ :: rest)
      ∧ (∀ e, func = .error e →
        ∃ rest, (audit_log loggerFail func events).2
          = events ++ ⟨false, some e⟩ :: rest)
      ∧ ((∀ en, loggerFail en = none) →
        (audit_log loggerFail func events).1 = func) := by
  intro R loggerFail func events
  refine ⟨?_, ?_, ?_⟩
  · intro r hf
    subst hf
    unfold audit_log log_event
    dsimp only
    cases h1 : loggerFail ⟨true, none⟩ with
    | none => exact ⟨[], by simp⟩
    | some e =>
      cases h2 : loggerFail ⟨false, some e⟩ with
      | none => exact ⟨[⟨false, some e⟩], by simp [h2]⟩
      | some e2 => exact ⟨[⟨false, some e⟩], by simp [h2]⟩
  · intro e hf
    subst hf
    unfold audit_log log_event
    dsimp only
    cases h1 : loggerFail ⟨false, some e⟩ with
    | none => exact ⟨[], by simp⟩
    | some e2 => exact ⟨[], by simp⟩
  · intro hok
    cases func with
    | ok r =>
      unfold audit_log log_event
      dsimp only
      rw [hok ⟨true, none⟩]
    | error e =>
      unfold audit_log log_event
      dsimp only
      rw [hok ⟨false, some e⟩]

/-- C8 amended witness: with a logger that never fails, a successful call
returning `5` is delivered unchanged. -/
theorem claim_C8_amended_witness :
    (audit_log (fun _ => none) (Except.ok (5 : Nat)) []).1 = Except.ok 5 :=
  (claim_C8_amended (fun _ => none) (Except.ok 5) []).2.2 (fun _ => rfl)

/-! ## sanitize_data (security.py lines 213-227) -/

/-- The NUL character removed by `sanitize_data`. -/
def nulC : Char := Char.ofNat 0

/-- `data.replace('\n', ' ')`: newlines collapse to spaces. -/
def replNl (s : List Char) : List Char :=
  s.map (fun c => if c = '\n' then ' ' else c)

/-- `data.replace('\x00','').replace('\r','').replace('\n',' ')`. -/
def cleanStr (s : List Char) : List Char :=
  replNl ((s.filter (fun c => decide (c ≠ nulC))).filter (fun c => decide (c ≠ '\r')))

/-- The truncation marker appended to over-long strings. -/
def truncMarker : List Char := "... [truncated]".toList

/-- The string branch of `sanitize_data`: strip NUL/CR, collapse newlines,
then truncate to 10000 characters with the marker appended. -/
def sanitizeStr (s : List Char) : List Char :=
  if 10000 < (cleanStr s).length then (cleanStr s).take 10000 ++ truncMarker
  else cleanStr s

/-- A character `sanitize_data` never emits inside a string. -/
def goodChar (c : Char) : Prop := c ≠ nulC ∧ c ≠ '\r' ∧ c ≠ '\n'

/-- Python's loosely-typed values as they reach `sanitize_data`: strings,
lists, dicts (keys preserved verbatim), and other scalars. -/
inductive Data where
  | str : List Char → Data
  | list : List Data → Data
  | dict : List (List Char × Data) → Data
  | other : Int → Data

theorem sizeOf_take_le {α : Type} [SizeOf α] (n : Nat) (l : List α) :
    sizeOf (l.take n) ≤ sizeOf l := by
  induction l generalizing n with
  | nil => simp [List.take]
  | cons a as ih =>
    cases n with
    | zero => simp; omega
    | succ m =>
      simp only [List.take_succ_cons, List.cons.sizeOf_spec]
      have := ih m
      omega

mutual

/-- `sanitize_data` (security.py lines 213-227): strings are cleaned and
truncated; lists keep at most their first 100 elements, each sanitized;
dicts keep at most their first 50 entries, keys verbatim and values
sanitized; anything else is returned unchanged. -/
def sanitize_data : Data → Data
  | .str s => .str (sanitizeStr s)
  | .list l => .list (sanitizeList (l.take 100))
  | .dict l => .dict (sanitizeDict (l.take 50))
  | .other n => .other n
termination_by d => sizeOf d
decreasing_by
  · have h := sizeOf_take_le 100 l
    simp only [Data.list.sizeOf_spec]
    omega
  · have h := sizeOf_take_le 50 l
    simp only [Data.dict.sizeOf_spec]
    omega

/-- The list comprehension `[sanitize_data(item) for item in data[:100]]`. -/
def sanitizeList : List Data → List Data
  | [] => []
  | d :: ds => sanitize_data d :: sanitizeList ds
termination_by l => sizeOf l
decreasing_by
  · simp only [List.cons.sizeOf_spec]; omega
  · simp only [List.cons.sizeOf_spec]; omega

/-- The dict comprehension `{k: sanitize_data(v) for k, v in ...}`. -/
def sanitizeDict : List (List Char × Data) → List (List Char × Data)
  | [] => []
  | (k, d) :: ds => (k, sanitize_data d) :: sanitizeDict ds
termination_by l => sizeOf l
decreasing_by
  · simp only [List.cons.sizeOf_spec, Prod.mk.sizeOf_spec]; omega
  · simp only [List.cons.sizeOf_spec]; omega

end

mutual

/-- The size discipline the claim attributes to sanitized output: every list
has at most 100 elements and every dict at most 50 entries, recursively. -/
def sizesOk : Data → Bool
  | .str _ => true
  | .list l => decide (l.length ≤ 100) && sizesOkList l
  | .dict l => decide (l.length ≤ 50) && sizesOkDict l
  | .other _ => true
termination_by d => sizeOf d
decreasing_by
  · simp only [Data.list.sizeOf_spec]; omega
  · simp only [Data.dict.sizeOf_spec]; omega

/-- `sizesOk` over the elements of a list. -/
def sizesOkList : List Data → Bool
  | [] => true
  | d :: ds => sizesOk d && sizesOkList ds
termination_by l => sizeOf l
decreasing_by
  · simp only [List.cons.sizeOf_spec]; omega
  · simp only [List.cons.sizeOf_spec]; omega

/-- `sizesOk` over the values of a dict. -/
def sizesOkDict : List (List Char × Data) → Bool
  | [] => true
  | (_, d) :: ds => sizesOk d && sizesOkDict ds
termination_by l => sizeOf l
decreasing_by
  · simp only [List.cons.sizeOf_spec, Prod.mk.sizeOf_spec]; omega
  · simp only [List.cons.sizeOf_spec]; omega

end

/-! Lemmas about the string branch. -/

theorem cleanStr_good (s : List Char) : ∀ c ∈ cleanStr s, goodChar c := by
  intro c hc
  unfold cleanStr replNl at hc
  rw [List.mem_map] at hc
  obtain ⟨x, hx, hfx⟩ := hc
  rw [List.mem_filter] at hx
  obtain ⟨hx1, hcr⟩ := hx
  rw [List.mem_filter] at hx1
  obtain ⟨_, hnul⟩ := hx1
  by_cases hlf : x = '\n'
  · rw [if_pos hlf] at hfx
    rw [← hfx]
    exact ⟨by decide, by decide, by decide⟩
  · rw [if_neg hlf] at hfx
    rw [← hfx]
    exact ⟨by simpa using hnul, by simpa using hcr, hlf⟩

theorem cleanStr_of_good (s : List Char) (h : ∀ c ∈ s, goodChar c) :
    cleanStr s = s := by
  unfold cleanStr replNl
  rw [List.filter_eq_self.mpr (fun c hc => decide_eq_true (h c hc).1)]
  rw [List.filter_eq_self.mpr (fun c hc => decide_eq_true (h c hc).2.1)]
  rw [List.map_congr_left (fun c hc => if_neg (h c hc).2.2)]
  exact List.map_id s

theorem truncMarker_good : ∀ c ∈ truncMarker, goodChar c := by
  unfold goodChar
  decide

theorem sanitizeStr_good (s : List Char) : ∀ c ∈ sanitizeStr s, goodChar c := by
  intro c hc
  unfold sanitizeStr at hc
  split at hc
  · rw [List.mem_append] at hc
    cases hc with
    | inl h => exact cleanStr_good s c (List.take_subset _ _ h)
    | inr h => exact truncMarker_good c h
  · exact cleanStr_good s c hc

theorem sanitizeStr_eq (t : List Char) :
    sanitizeStr t = if 10000 < (cleanStr t).length
      then (cleanStr t).take 10000 ++ truncMarker else cleanStr t := rfl

theorem sanitizeStr_idem (s : List Char) :
    sanitizeStr (sanitizeStr s) = sanitizeStr s := by
  have hidem : cleanStr (sanitizeStr s) = sanitizeStr s :=
    cleanStr_of_good _ (sanitizeStr_good s)
  by_cases hgt : 10000 < (cleanStr s).length
  · have hout : sanitizeStr s = (cleanStr s).take 10000 ++ truncMarker := by
      unfold sanitizeStr
      rw [if_pos hgt]
    have hlen : ((cleanStr s).take 10000).length = 10000 := by
      rw [List.length_take]
      omega
    have hlen2 : (sanitizeStr s).length = 10015 := by
      rw [hout, List.length_append, hlen]
      rfl
    conv_lhs => rw [sanitizeStr_eq (sanitizeStr s)]
    rw [hidem, if_pos (by omega : 10000 < (sanitizeStr s).length), hout]
    congr 1
    exact List.take_left' hlen
  · have hout : sanitizeStr s = cleanStr s := by
      unfold sanitizeStr
      rw [if_neg hgt]
    conv_lhs => rw [sanitizeStr_eq (sanitizeStr s)]
    rw [hidem, hout, if_neg hgt]

/-! Bridge lemmas for the mutual comprehensions. -/

theorem sanitizeList_map (l : List Data) : sanitizeList l = l.map sanitize_data := by
  induction l with
  | nil => rw [sanitizeList, List.map_nil]
  | cons d ds ih => rw [sanitizeList, List.map_cons, ih]

theorem sanitizeDict_map (l : List (List Char × Data)) :
    sanitizeDict l = l.map (fun kv => (kv.1, sanitize_data kv.2)) := by
  induction l with
  | nil => rw [sanitizeDict, List.map_nil]
  | cons kv ds ih =>
    obtain ⟨k, d⟩ := kv
    rw [sanitizeDict, List.map_cons, ih]

theorem sizesOkList_all (l : List Data) : sizesOkList l = l.all sizesOk := by
  induction l with
  | nil => rw [sizesOkList, List.all_nil]
  | cons d ds ih => rw [sizesOkList, List.all_cons, ih]

theorem sizesOkDict_all (l : List (List Char × Data)) :
    sizesOkDict l = l.all (fun kv => sizesOk kv.2) := by
  induction l with
  | nil => rw [sizesOkDict, List.all_nil]
  | cons kv ds ih =>
    obtain ⟨k, d⟩ := kv
    rw [sizesOkDict, List.all_cons, ih]

/-! Idempotence and size bounds, by strong induction on `sizeOf`. -/

theorem sanitize_data_idem_aux : ∀ (n : Nat) (d : Data), sizeOf d ≤ n →
    sanitize_data (sanitize_data d) = sanitize_data d := by
  intro n
  induction n with
  | zero =>
    intro d h
    exfalso
    cases d <;> simp_arith at h
  | succ n ih =>
    intro d h
    cases d with
    | str s =>
      simp only [sanitize_data]
      rw [sanitizeStr_idem]
    | other k => simp only [sanitize_data]
    | list l =>
      simp only [sanitize_data, sanitizeList_map]
      congr 1
      have hlen : ((l.take 100).map sanitize_data).length ≤ 100 := by
        rw [List.length_map]
        exact List.length_take_le _ _
      rw [List.take_of_length_le hlen, List.map_map]
      apply List.map_congr_left
      intro a ha
      have ha' : a ∈ l := List.take_subset _ _ ha
      have hsz : sizeOf a < sizeOf l := List.sizeOf_lt_of_mem ha'
      have hdl : sizeOf (Data.list l) = 1 + sizeOf l := by simp
      exact ih a (by omega)
    | dict l =>
      simp only [sanitize_data, sanitizeDict_map]
      congr 1
      have hlen : ((l.take 50).map (fun kv => (kv.1, sanitize_data kv.2))).length ≤ 50 := by
        rw [List.length_map]
        exact List.length_take_le _ _
      rw [List.take_of_length_le hlen, List.map_map]
      apply List.map_congr_left
      intro a ha
      obtain ⟨k, v⟩ := a
      have ha' : (k, v) ∈ l := List.take_subset _ _ ha
      have hsz : sizeOf (k, v) < sizeOf l := List.sizeOf_lt_of_mem ha'
      have hkv : sizeOf (k, v) = 1 + sizeOf k + sizeOf v := by simp
      have hdl : sizeOf (Data.dict l) = 1 + sizeOf l := by simp
      have hv : sanitize_data (sanitize_data v) = sanitize_data v := ih v (by omega)
      simp only [Function.comp_apply, hv]

theorem sanitize_data_sizesOk_aux : ∀ (n : Nat) (d : Data), sizeOf d ≤ n →
    sizesOk (sanitize_data d) = true := by
  intro n
  induction n with
  | zero =>
    intro d h
    exfalso
    cases d <;> simp_arith at h
  | succ n ih =>
    intro d h
    cases d with
    | str s => simp only [sanitize_data, sizesOk]
    | other k => simp only [sanitize_data, sizesOk]
    | list l =>
      simp only [sanitize_data, sanitizeList_map, sizesOk, sizesOkList_all,
        Bool.and_eq_true, decide_eq_true_eq, List.all_eq_true]
      refine ⟨by rw [List.length_map]; exact List.length_take_le _ _, ?_⟩
      intro x hx
      rw [List.mem_map] at hx
      obtain ⟨a, ha, rfl⟩ := hx
      have ha' : a ∈ l := List.take_subset _ _ ha
      have hsz : sizeOf a < sizeOf l := List.sizeOf_lt_of_mem ha'
      have hdl : sizeOf (Data.list l) = 1 + sizeOf l := by simp
      exact ih a (by omega)
    | dict l =>
      simp only [sanitize_data, sanitizeDict_map, sizesOk, sizesOkDict_all,
        Bool.and_eq_true, decide_eq_true_eq, List.all_eq_true]
      refine ⟨by rw [List.length_map]; exact List.length_take_le _ _, ?_⟩
      intro x hx
      rw [List.mem_map] at hx
      obtain ⟨a, ha, rfl⟩ := hx
      obtain ⟨k, v⟩ := a
      have ha' : (k, v) ∈ l := List.take_subset _ _ ha
      have hsz : sizeOf (k, v) < sizeOf l := List.sizeOf_lt_of_mem ha'
      have hkv : sizeOf (k, v) = 1 + sizeOf k + sizeOf v := by simp
      have hdl : sizeOf (Data.dict l) = 1 + sizeOf l := by simp
      exact ih v (by omega)

/-- C4: `sanitize_data` is idempotent on every value — arbitrary nesting of
strings, lists, dicts and other scalars — so a second pass reproduces the
first pass's output exactly, in particular never increasing any string
length, list length or dict size relative to it; and the first pass's
output already satisfies the size bounds: every list holds at most 100
elements and every dict at most 50 entries, recursively. -/
theorem claim_C4 : ∀ d : Data,
    sanitize_data (sanitize_data d) = sanitize_data d
    ∧ sizesOk (sanitize_data d) = true :=
  fun d => ⟨sanitize_data_idem_aux (sizeOf d) d le_rfl,
            sanitize_data_sizesOk_aux (sizeOf d) d le_rfl⟩

end McpGoogleSheets
